import Mathlib

/-!
Verification of the bee ledger-graph engine specification against a shallow
embedding of the repository's code.

The repository sample contains the module skeleton of `bee-tangle`
(src/bee-tangle/src/lib.rs), a benchmark exercising `Tangle::insert` and
`Tangle::update_metadata` (src/bee-tangle/benches/tangle_bench.rs), the
generic system-table storage test (src/bee-storage/bee-storage-test/src/system.rs),
the native-token output type (src/bee-message/src/output/native_token.rs) and
the plugin handler (src/bee-node/bee-plugin/src/handler.rs).

The bodies of the tangle, tip pool, conflict resolver and storage backends are
not part of the sample, so those components are modelled from the spec
(sections 3, 4.1, 4.2, 4.3 and 6), each such definition carrying a
`Modelled from the spec:` doc comment.  `NativeTokens` and `PluginHandler`
are embedded directly from the source.
-/

namespace Bee

/-- Modelled from the spec: §3 ConflictReason, a closed enumeration of conflict
reasons (the `conflict` module of bee-tangle is not in the sample; the variant
names follow the spec's examples and the benchmark's use of
`ConflictReason::InputUtxoAlreadySpent`). -/
inductive ConflictReason where
  | none
  | inputUtxoAlreadySpent
  | inputUtxoNotFound
  | invalidSemantics
  deriving DecidableEq, Repr

/-- Modelled from the spec: §4.3 Conflict Resolver.  `resolve current candidate`
returns `candidate` when `current` is `none` and `current` otherwise (first
conflict wins). -/
def resolve (current candidate : ConflictReason) : ConflictReason :=
  if current = ConflictReason.none then candidate else current

/-- Modelled from the spec: §3 MessageMetadata, the per-message mutable record
(the `metadata` module of bee-tangle is not in the sample). -/
structure MessageMetadata where
  arrivalTimestamp : Nat
  solidificationTimestamp : Option Nat
  referencedTimestamp : Option Nat
  milestoneIndex : Option Nat
  conflict : ConflictReason
  solid : Bool
  deriving DecidableEq, Repr

/-- Modelled from the spec: §3 Message, an immutable payload with an ordered
list of parent message ids and opaque content.  Message ids are modelled as
naturals. -/
structure Message where
  parents : List Nat
  content : Nat
  deriving DecidableEq, Repr

/-- Modelled from the spec: §4.1 guarded application of a caller-supplied
metadata mutation.  The component applies the mutation but rejects attempts to
revert the append-only fields: a set solidification or reference timestamp is
kept, and the conflict field may change only through `resolve`. -/
def applyMutation (old : MessageMetadata) (f : MessageMetadata → MessageMetadata) :
    MessageMetadata :=
  let m := f old
  { m with
    solidificationTimestamp :=
      match old.solidificationTimestamp with
      | some t => some t
      | Option.none => m.solidificationTimestamp
    referencedTimestamp :=
      match old.referencedTimestamp with
      | some t => some t
      | Option.none => m.referencedTimestamp
    conflict := resolve old.conflict m.conflict }

/-- Modelled from the spec: §3 Tangle aggregate owning the graph cache (an
in-memory map from message id to message and metadata, as an association list)
and the tip pool (tip id paired with its became-a-tip timestamp).  The
`tangle` and `urts` modules of bee-tangle are not in the sample. -/
structure Tangle where
  entries : List (Nat × Message × MessageMetadata)
  tipPool : List (Nat × Nat)
  deriving DecidableEq, Repr

/-- The empty tangle, as created at node start. -/
def Tangle.empty : Tangle := { entries := [], tipPool := [] }

/-- Whether the graph cache holds an entry for `id`. -/
def Tangle.containsId (s : Tangle) (id : Nat) : Bool :=
  s.entries.any (fun e => e.1 = id)

/-- Whether some known message references `id` as a parent. -/
def Tangle.referenced (s : Tangle) (id : Nat) : Bool :=
  s.entries.any (fun e => e.2.1.parents.contains id)

/-- Modelled from the spec: §4.1 `get`, consulting the in-memory map. -/
def Tangle.get (s : Tangle) (id : Nat) : Option Message :=
  (s.entries.find? (fun e => e.1 = id)).map (fun e => e.2.1)

/-- Modelled from the spec: §4.1 `get_metadata`, consulting the in-memory map. -/
def Tangle.get_metadata (s : Tangle) (id : Nat) : Option MessageMetadata :=
  (s.entries.find? (fun e => e.1 = id)).map (fun e => e.2.2)

/-- Modelled from the spec: §4.1 `insert` and the §2 control flow.  If `id` is
already present the call returns `false` and changes nothing (first-writer
wins).  Otherwise the entry is stored, every parent of the new message is
removed from the tip pool, and the new message becomes a tip unless it is
already referenced by a known message (§4.2 `insert_tip` guard). -/
def Tangle.insert (s : Tangle) (id : Nat) (msg : Message) (meta : MessageMetadata)
    (now : Nat) : Tangle × Bool :=
  if s.containsId id then (s, false)
  else
    let entries := (id, msg, meta) :: s.entries
    let tipsAfterRemove := s.tipPool.filter (fun t => ¬ msg.parents.contains t.1)
    let afterStore : Tangle := { entries := entries, tipPool := tipsAfterRemove }
    let tipPool :=
      if afterStore.referenced id then tipsAfterRemove else (id, now) :: tipsAfterRemove
    ({ entries := entries, tipPool := tipPool }, true)

/-- Modelled from the spec: §4.1 `update_metadata`, atomically applying a
caller-supplied transformation to the metadata for `id` (no-op when absent),
guarded by `applyMutation`; returns the updated value or `none`. -/
def Tangle.update_metadata (s : Tangle) (id : Nat)
    (f : MessageMetadata → MessageMetadata) : Tangle × Option MessageMetadata :=
  let entries := s.entries.map (fun e =>
    if e.1 = id then (e.1, e.2.1, applyMutation e.2.2 f) else e)
  ({ s with entries := entries },
   ((s.entries.find? (fun e => e.1 = id)).map (fun e => applyMutation e.2.2 f)))

/-- Modelled from the spec: §4.2 `tips`, a snapshot of the current tip set. -/
def Tangle.tips (s : Tangle) : List Nat :=
  s.tipPool.map (fun t => t.1)

/-- Folding a sequence of `update_metadata` calls for one id over a tangle. -/
def Tangle.update_many (s : Tangle) (id : Nat)
    (fs : List (MessageMetadata → MessageMetadata)) : Tangle :=
  fs.foldl (fun st f => (st.update_metadata id f).1) s

/-- Folding a sequence of `insert` calls over the empty tangle; each operation
carries the id, the message, its metadata and the arrival time. -/
def applyInserts (ops : List (Nat × Message × MessageMetadata × Nat)) : Tangle :=
  ops.foldl (fun s op => (s.insert op.1 op.2.1 op.2.2.1 op.2.2.2).1) Tangle.empty

/-- The tip-pool invariant of §4.2: every tip is a known message that no known
message references as a parent. -/
def tipInvariant (s : Tangle) : Prop :=
  ∀ tid ∈ s.tips, s.containsId tid = true ∧ s.referenced tid = false

/-- Modelled from the spec: §7 taxonomy of storage failures, distinguishing a
backend failure from not-found (which is not an error). -/
inductive StorageError where
  | backend
  deriving DecidableEq, Repr

/-- Modelled from the spec: §6 Storage Adapter record store, an in-memory
association list from key to record (keys and records modelled as naturals;
the concrete backends are not in the sample). -/
structure Store where
  records : List (Nat × Nat)
  deriving DecidableEq, Repr

/-- The keys present in a store. -/
def Store.keys (s : Store) : List Nat :=
  s.records.map (fun r => r.1)

/-- Modelled from the spec: §6 `fetch(key) -> Option<Record>`; an absent key
yields a successful empty result, never a backend error (§7 (d)). -/
def Store.fetch (s : Store) (key : Nat) : Except StorageError (Option Nat) :=
  Except.ok ((s.records.find? (fun r => r.1 = key)).map (fun r => r.2))

/-- Modelled from the spec: §6 `multi_fetch(keys)`, producing one slot per
input key in input order, each slot the result of fetching that key (matching
the per-slot results asserted in bee-storage-test system_access). -/
def Store.multi_fetch (s : Store) (keys : List Nat) :
    List (Except StorageError (Option Nat)) :=
  match keys with
  | [] => []
  | k :: ks => s.fetch k :: s.multi_fetch ks

/-- Modelled from the spec: §6 StorageHealth, Idle or Corrupted. -/
inductive StorageHealth where
  | idle
  | corrupted
  deriving DecidableEq, Repr

/-- Modelled from the spec: the System record of the storage system table,
either a version or a health value (bee-storage's system module is not in the
sample; the shape follows its use in bee-storage-test system_access). -/
inductive System where
  | Version (v : Nat)
  | Health (h : StorageHealth)
  deriving DecidableEq, Repr

/-- Key of the system version record. -/
def SYSTEM_VERSION_KEY : Nat := 0

/-- Key of the system health record. -/
def SYSTEM_HEALTH_KEY : Nat := 1

/-- Modelled from the spec: the system table of a storage backend, holding the
schema version and the health value. -/
structure SystemStore where
  version : Nat
  health : StorageHealth
  deriving DecidableEq, Repr

/-- Modelled from the spec: `Fetch` of a System record by its u8 key, as
exercised by bee-storage-test system_access. -/
def SystemStore.fetch (s : SystemStore) (key : Nat) :
    Except StorageError (Option System) :=
  if key = SYSTEM_VERSION_KEY then Except.ok (some (System.Version s.version))
  else if key = SYSTEM_HEALTH_KEY then Except.ok (some (System.Health s.health))
  else Except.ok Option.none

/-- Modelled from the spec: §6 the dedicated `health()` accessor. -/
def SystemStore.healthOf (s : SystemStore) : Except StorageError (Option StorageHealth) :=
  Except.ok (some s.health)

/-- Modelled from the spec: §6 `set_health`, writing the health record. -/
def SystemStore.set_health (s : SystemStore) (h : StorageHealth) : SystemStore :=
  { s with health := h }

/-- A native token, from src/bee-message/src/output/native_token.rs: a token
identifier and an amount (TokenId and U256 modelled as naturals; only the id's
order matters to construction). -/
structure NativeToken where
  token_id : Nat
  amount : Nat
  deriving DecidableEq, Repr

/-- The error variants of bee-message reachable from NativeTokens::new. -/
inductive Error where
  | InvalidNativeTokenCount (len : Nat)
  | NativeTokensNotUniqueSorted
  deriving DecidableEq, Repr

/-- Modelled from the spec: bee-common's `is_unique_sorted` (bee-common/src/ord.rs
is not in the sample) — true exactly when consecutive elements are strictly
increasing, i.e. the sequence is sorted with no duplicates, as its use in
`validate_unique_sorted` after sorting requires. -/
def is_unique_sorted (ids : List Nat) : Bool :=
  match ids with
  | [] => true
  | [_] => true
  | a :: b :: rest => a < b && is_unique_sorted (b :: rest)

namespace NativeTokens

/-- Maximum possible number of different native tokens in one output,
NativeTokens::COUNT_MAX. -/
def COUNT_MAX : Nat := 256

end NativeTokens

/-- validate_unique_sorted from native_token.rs (at VERIFY = true): error with
NativeTokensNotUniqueSorted unless the token ids are strictly sorted. -/
def validate_unique_sorted (native_tokens : List NativeToken) : Except Error Unit :=
  if is_unique_sorted (native_tokens.map NativeToken.token_id) then Except.ok ()
  else Except.error Error.NativeTokensNotUniqueSorted

/-- NativeTokens::new from native_token.rs: the length-bound conversion into a
BoundedU16-prefixed slice (an error past COUNT_MAX), then a stable sort by
token id, then the uniqueness validation. -/
def NativeTokens.new (native_tokens : List NativeToken) : Except Error (List NativeToken) :=
  if NativeTokens.COUNT_MAX < native_tokens.length then
    Except.error (Error.InvalidNativeTokenCount native_tokens.length)
  else
    let sorted := native_tokens.mergeSort (fun a b => a.token_id ≤ b.token_id)
    match validate_unique_sorted sorted with
    | Except.ok _ => Except.ok sorted
    | Except.error e => Except.error e

/-- EventId from bee-plugin: the three streamable event kinds matched in
register_callback (handler.rs). -/
inductive EventId where
  | MessageParsed
  | ParsingFailed
  | MessageRejected
  deriving DecidableEq, Repr

/-- The observable state of a PluginHandler from bee-plugin handler.rs: the
`shutdowns` map (event id to the oneshot shutdown sender, modelled by a fresh
natural), the spawned streamer tasks and the event-bus listeners added, each
recorded by the event kind it serves. -/
structure PluginHandler where
  shutdowns : List (EventId × Nat)
  streamers : List EventId
  listeners : List EventId
  nextShutdownId : Nat
  deriving DecidableEq, Repr

/-- Whether the shutdowns map already holds an entry for `event_id`. -/
def PluginHandler.containsEvent (h : PluginHandler) (event_id : EventId) : Bool :=
  h.shutdowns.any (fun e => e.1 = event_id)

/-- register_callback from handler.rs: only when the `shutdowns` entry for
`event_id` is vacant does it insert a shutdown sender, spawn a streamer task
for the event kind and add an event-bus listener; otherwise nothing happens. -/
def PluginHandler.register_callback (h : PluginHandler) (event_id : EventId) :
    PluginHandler :=
  if h.containsEvent event_id then h
  else
    { shutdowns := (event_id, h.nextShutdownId) :: h.shutdowns
      streamers := event_id :: h.streamers
      listeners := event_id :: h.listeners
      nextShutdownId := h.nextShutdownId + 1 }

/-- The registration phase of PluginHandler::new from handler.rs: starting from
an empty `shutdowns` map, register_callback is called for every event id of the
handshake in order. -/
def PluginHandler.new (event_ids : List EventId) : PluginHandler :=
  event_ids.foldl PluginHandler.register_callback
    { shutdowns := [], streamers := [], listeners := [], nextShutdownId := 0 }

/-- The number of streamer tasks serving `e`. -/
def PluginHandler.countStreamers (h : PluginHandler) (e : EventId) : Nat :=
  h.streamers.countP (fun x => x = e)

/-- The number of event-bus listeners serving `e`. -/
def PluginHandler.countListeners (h : PluginHandler) (e : EventId) : Nat :=
  h.listeners.countP (fun x => x = e)

/-- A settled metadata record: reference timestamp set and a conflict
recorded. -/
def mdSettled : MessageMetadata :=
  { arrivalTimestamp := 1
    solidificationTimestamp := some 2
    referencedTimestamp := some 9
    milestoneIndex := some 3
    conflict := ConflictReason.inputUtxoAlreadySpent
    solid := true }

/-- A one-message tangle whose message 0 is settled. -/
def tangleSettled : Tangle :=
  { entries := [(0, Message.mk [] 0, mdSettled)], tipPool := [(0, 1)] }

/-- Two mutations trying to clear the reference timestamp and overwrite the
conflict reason. -/
def clearMutations : List (MessageMetadata → MessageMetadata) :=
  [fun m => { m with referencedTimestamp := Option.none, conflict := ConflictReason.none },
   fun m => { m with referencedTimestamp := some 100, conflict := ConflictReason.invalidSemantics }]

/-- A fresh metadata record, as created for a newly arrived message. -/
def mdFresh : MessageMetadata :=
  { arrivalTimestamp := 0
    solidificationTimestamp := Option.none
    referencedTimestamp := Option.none
    milestoneIndex := Option.none
    conflict := ConflictReason.none
    solid := false }

section TheTheorems

/-- Applying a guarded mutation keeps a reference timestamp that is already
set. -/
theorem applyMutation_keeps_referenced (old : MessageMetadata)
    (f : MessageMetadata → MessageMetadata) (t : Nat)
    (h : old.referencedTimestamp = some t) :
    (applyMutation old f).referencedTimestamp = some t := by
  simp [applyMutation, h]

/-- Applying a guarded mutation keeps a conflict reason that is already
non-none. -/
theorem applyMutation_keeps_conflict (old : MessageMetadata)
    (f : MessageMetadata → MessageMetadata)
    (h : old.conflict ≠ ConflictReason.none) :
    (applyMutation old f).conflict = old.conflict := by
  simp [applyMutation, resolve, h]

/-- Finding metadata for an id after the update map rewrote that id's entry. -/
theorem findMeta_map_update
    (l : List (Nat × Message × MessageMetadata)) (id : Nat)
    (f : MessageMetadata → MessageMetadata) (md : MessageMetadata)
    (h : (l.find? (fun e => e.1 = id)).map (fun e => e.2.2) = some md) :
    ((l.map (fun e => if e.1 = id then (e.1, e.2.1, applyMutation e.2.2 f) else e)).find?
        (fun e => e.1 = id)).map (fun e => e.2.2) = some (applyMutation md f) := by
  induction l with
  | nil => simp at h
  | cons hd tl ih =>
    obtain ⟨k, m, mm⟩ := hd
    by_cases hk : k = id
    · subst hk
      rw [List.find?_cons_of_pos _ (by simp)] at h
      have hmm : mm = md := by simpa using h
      rw [List.map_cons, if_pos rfl, List.find?_cons_of_pos _ (by simp)]
      simpa using congrArg (fun x => applyMutation x f) hmm
    · rw [List.find?_cons_of_neg _ (by simpa using hk)] at h
      rw [List.map_cons, if_neg hk, List.find?_cons_of_neg _ (by simpa using hk)]
      exact ih h

/-- After `update_metadata`, an id that held metadata `md` holds the guarded
mutation of `md`. -/
theorem get_metadata_update (s : Tangle) (id : Nat)
    (f : MessageMetadata → MessageMetadata) (md : MessageMetadata)
    (h : s.get_metadata id = some md) :
    ((s.update_metadata id f).1).get_metadata id = some (applyMutation md f) := by
  simpa [Tangle.update_metadata, Tangle.get_metadata] using
    findMeta_map_update s.entries id f md (by simpa [Tangle.get_metadata] using h)

/-- Inserting an id that the graph cache already contains returns false and
leaves the tangle unchanged. -/
theorem insert_of_contains (s : Tangle) (id : Nat) (m : Message)
    (md : MessageMetadata) (t : Nat) (hc : s.containsId id = true) :
    s.insert id m md t = (s, false) := by
  simp [Tangle.insert, hc]

/-- C1: a first insert of an absent id stores the message and metadata and
returns true; a second insert with the same id returns false and leaves the
tangle, message and metadata of the first call unchanged. -/
theorem insert_first_writer_wins (s : Tangle) (id : Nat)
    (m₁ : Message) (md₁ : MessageMetadata) (t₁ : Nat)
    (m₂ : Message) (md₂ : MessageMetadata) (t₂ : Nat)
    (h : s.containsId id = false) :
    (s.insert id m₁ md₁ t₁).2 = true ∧
    ((s.insert id m₁ md₁ t₁).1).get id = some m₁ ∧
    ((s.insert id m₁ md₁ t₁).1).get_metadata id = some md₁ ∧
    ((s.insert id m₁ md₁ t₁).1).insert id m₂ md₂ t₂ = ((s.insert id m₁ md₁ t₁).1, false) := by
  have hentries : ((s.insert id m₁ md₁ t₁).1).entries = (id, m₁, md₁) :: s.entries := by
    simp [Tangle.insert, h]
  have hcont : ((s.insert id m₁ md₁ t₁).1).containsId id = true := by
    simp [Tangle.containsId, hentries]
  refine ⟨by simp [Tangle.insert, h], ?_, ?_, insert_of_contains _ id m₂ md₂ t₂ hcont⟩
  · simp only [Tangle.get, hentries]
    rw [List.find?_cons_of_pos _ (by simp)]
    rfl
  · simp only [Tangle.get_metadata, hentries]
    rw [List.find?_cons_of_pos _ (by simp)]
    rfl

/-- Witness for C1 at a concrete tangle. -/
theorem insert_first_writer_wins_witness :
    Tangle.empty.containsId 0 = false ∧
    (Tangle.empty.insert 0 (Message.mk [] 3) mdFresh 5).2 = true ∧
    ((Tangle.empty.insert 0 (Message.mk [] 3) mdFresh 5).1).get 0 = some (Message.mk [] 3) ∧
    ((Tangle.empty.insert 0 (Message.mk [] 3) mdFresh 5).1).get_metadata 0 = some mdFresh ∧
    ((Tangle.empty.insert 0 (Message.mk [] 3) mdFresh 5).1).insert 0 (Message.mk [] 4) mdFresh 6 =
      ((Tangle.empty.insert 0 (Message.mk [] 3) mdFresh 5).1, false) := by
  have h := insert_first_writer_wins Tangle.empty 0 (Message.mk [] 3) mdFresh 5
    (Message.mk [] 4) mdFresh 6 (by decide)
  exact ⟨by decide, h.1, h.2.1, h.2.2.1, h.2.2.2⟩

/-- C3: the conflict resolver returns the candidate when the current reason is
none and the current reason otherwise; consequently setting
input-already-spent and then invalid-semantics on a message leaves its final
conflict reason equal to input-already-spent. -/
theorem resolve_first_conflict_wins (current candidate : ConflictReason)
    (s : Tangle) (id : Nat) (md : MessageMetadata)
    (hmd : s.get_metadata id = some md)
    (hnone : md.conflict = ConflictReason.none) :
    resolve ConflictReason.none candidate = candidate ∧
    (current ≠ ConflictReason.none → resolve current candidate = current) ∧
    (((((s.update_metadata id
          (fun m => { m with conflict := ConflictReason.inputUtxoAlreadySpent })).1).update_metadata id
          (fun m => { m with conflict := ConflictReason.invalidSemantics })).1).get_metadata id).map
        MessageMetadata.conflict = some ConflictReason.inputUtxoAlreadySpent := by
  refine ⟨by simp [resolve], fun hc => by simp [resolve, hc], ?_⟩
  have h1 := get_metadata_update s id
    (fun m => { m with conflict := ConflictReason.inputUtxoAlreadySpent }) md hmd
  have h2 := get_metadata_update _ id
    (fun m => { m with conflict := ConflictReason.invalidSemantics }) _ h1
  rw [h2]
  simp [applyMutation, resolve, hnone]

/-- C2: over any sequence of update_metadata calls on one id, a set reference
timestamp never changes or is cleared, and a non-none conflict reason never
changes. -/
theorem metadata_monotonic (s : Tangle) (id : Nat)
    (fs : List (MessageMetadata → MessageMetadata)) (md : MessageMetadata)
    (h : s.get_metadata id = some md) :
    ∃ md₂, (s.update_many id fs).get_metadata id = some md₂ ∧
      (∀ t, md.referencedTimestamp = some t → md₂.referencedTimestamp = some t) ∧
      (md.conflict ≠ ConflictReason.none → md₂.conflict = md.conflict) := by
  induction fs generalizing s md with
  | nil =>
    exact ⟨md, by simpa [Tangle.update_many] using h, fun t ht => ht, fun _ => rfl⟩
  | cons f fs ih =>
    have h1 := get_metadata_update s id f md h
    obtain ⟨md₂, hm, hr, hc⟩ := ih ((s.update_metadata id f).1) (applyMutation md f) h1
    refine ⟨md₂, ?_, ?_, ?_⟩
    · simpa [Tangle.update_many] using hm
    · intro t ht
      exact hr t (applyMutation_keeps_referenced md f t ht)
    · intro hcn
      have hkeep := applyMutation_keeps_conflict md f hcn
      rw [hc (by rw [hkeep]; exact hcn), hkeep]

/-- Witness for C2 at a settled one-message tangle and two reverting
mutations. -/
theorem metadata_monotonic_witness :
    tangleSettled.get_metadata 0 = some mdSettled ∧
    (∃ md₂, (tangleSettled.update_many 0 clearMutations).get_metadata 0 = some md₂ ∧
      (∀ t, mdSettled.referencedTimestamp = some t → md₂.referencedTimestamp = some t) ∧
      (mdSettled.conflict ≠ ConflictReason.none → md₂.conflict = mdSettled.conflict)) :=
  ⟨by decide, metadata_monotonic tangleSettled 0 clearMutations mdSettled (by decide)⟩

/-- Witness for C3 at the settled tangle made conflict-free. -/
theorem resolve_first_conflict_wins_witness :
    ((Tangle.empty.insert 0 (Message.mk [] 0) mdFresh 0).1).get_metadata 0 = some mdFresh ∧
    mdFresh.conflict = ConflictReason.none ∧
    resolve ConflictReason.none ConflictReason.invalidSemantics = ConflictReason.invalidSemantics ∧
    (ConflictReason.inputUtxoAlreadySpent ≠ ConflictReason.none →
      resolve ConflictReason.inputUtxoAlreadySpent ConflictReason.invalidSemantics =
        ConflictReason.inputUtxoAlreadySpent) ∧
    Option.map MessageMetadata.conflict
      (((((((Tangle.empty.insert 0 (Message.mk [] 0) mdFresh 0).1).update_metadata 0
        (fun m => { m with conflict := ConflictReason.inputUtxoAlreadySpent })).1).update_metadata 0
        (fun m => { m with conflict := ConflictReason.invalidSemantics })).1).get_metadata 0) =
      some ConflictReason.inputUtxoAlreadySpent := by
  have h := resolve_first_conflict_wins ConflictReason.inputUtxoAlreadySpent
    ConflictReason.invalidSemantics ((Tangle.empty.insert 0 (Message.mk [] 0) mdFresh 0).1) 0
    mdFresh (by decide) (by decide)
  exact ⟨by decide, by decide, h.1, fun _ => h.2.1 (by decide), h.2.2⟩

/-- The fetch of a key present in the store succeeds with the first record
stored under it. -/
theorem fetch_present (s : Store) (k : Nat) (h : k ∈ s.keys) :
    ∃ r, s.fetch k = Except.ok (some r) ∧ (k, r) ∈ s.records := by
  have hex : ∃ x ∈ s.records, (fun e => decide (e.1 = k)) x = true := by
    obtain ⟨e, he, hk⟩ := List.mem_map.1 h
    exact ⟨e, he, by simpa using hk⟩
  obtain ⟨e, he⟩ := Option.isSome_iff_exists.1 (List.find?_isSome.2 hex)
  have hek : e.1 = k := by simpa using List.find?_some he
  refine ⟨e.2, ?_, ?_⟩
  · simp [Store.fetch, he]
  · have := List.mem_of_find?_eq_some he
    rwa [← hek, Prod.mk.eta]

/-- The fetch of a key absent from the store is a successful empty result. -/
theorem fetch_absent (s : Store) (k : Nat) (h : k ∉ s.keys) :
    s.fetch k = Except.ok Option.none := by
  have : s.records.find? (fun e => e.1 = k) = Option.none := by
    rw [List.find?_eq_none]
    intro e he
    simp only [decide_eq_true_eq]
    intro hek
    exact h (List.mem_map.2 ⟨e, he, hek⟩)
  simp [Store.fetch, this]

/-- multi_fetch produces the slot-by-slot fetches of the input keys. -/
theorem multi_fetch_eq_map (s : Store) (keys : List Nat) :
    s.multi_fetch keys = keys.map s.fetch := by
  induction keys with
  | nil => rfl
  | cons k ks ih => simp [Store.multi_fetch, ih]

/-- C5: multi_fetch returns exactly one slot per input key, in input order;
the slot of a present key holds its record and the slot of an absent key is
empty. -/
theorem multi_fetch_order_preserving (s : Store) (keys : List Nat) (i : Nat)
    (kp ka : Nat) (hp : kp ∈ s.keys) (ha : ka ∉ s.keys) :
    (s.multi_fetch keys).length = keys.length ∧
    (s.multi_fetch keys)[i]? = (keys[i]?).map s.fetch ∧
    (∃ r, s.fetch kp = Except.ok (some r) ∧ (kp, r) ∈ s.records) ∧
    s.fetch ka = Except.ok Option.none := by
  refine ⟨?_, ?_, fetch_present s kp hp, fetch_absent s ka ha⟩
  · rw [multi_fetch_eq_map, List.length_map]
  · rw [multi_fetch_eq_map, List.getElem?_map]

/-- Witness for C5 at a two-record store and a three-key query. -/
theorem multi_fetch_order_preserving_witness :
    (7 : Nat) ∈ (Store.mk [(7, 70), (8, 80)]).keys ∧
    (9 : Nat) ∉ (Store.mk [(7, 70), (8, 80)]).keys ∧
    ((Store.mk [(7, 70), (8, 80)]).multi_fetch [8, 7, 9]).length = ([8, 7, 9] : List Nat).length ∧
    ((Store.mk [(7, 70), (8, 80)]).multi_fetch [8, 7, 9])[1]? =
      (([8, 7, 9] : List Nat)[1]?).map (Store.mk [(7, 70), (8, 80)]).fetch ∧
    (∃ r, (Store.mk [(7, 70), (8, 80)]).fetch 7 = Except.ok (some r) ∧
      (7, r) ∈ (Store.mk [(7, 70), (8, 80)]).records) ∧
    (Store.mk [(7, 70), (8, 80)]).fetch 9 = Except.ok Option.none := by
  have h := multi_fetch_order_preserving (Store.mk [(7, 70), (8, 80)]) [8, 7, 9] 1 7 9
    (by decide) (by decide)
  exact ⟨by decide, by decide, h.1, h.2.1, h.2.2.1, h.2.2.2⟩

/-- C6: after set_health, both the dedicated health accessor and a Fetch of
the system health key return the written value. -/
theorem set_health_roundtrip (s : SystemStore) (h : StorageHealth) :
    (s.set_health h).healthOf = Except.ok (some h) ∧
    (s.set_health h).fetch SYSTEM_HEALTH_KEY = Except.ok (some (System.Health h)) :=
  ⟨rfl, rfl⟩

/-- Witness for C6 at a concrete system store set to corrupted. -/
theorem set_health_roundtrip_witness :
    ((SystemStore.mk 4 StorageHealth.idle).set_health StorageHealth.corrupted).healthOf =
      Except.ok (some StorageHealth.corrupted) ∧
    ((SystemStore.mk 4 StorageHealth.idle).set_health StorageHealth.corrupted).fetch
      SYSTEM_HEALTH_KEY = Except.ok (some (System.Health StorageHealth.corrupted)) :=
  set_health_roundtrip (SystemStore.mk 4 StorageHealth.idle) StorageHealth.corrupted

/-- C7: fetching a key absent from the store returns a successful empty
result, never a backend error. -/
theorem fetch_not_found_is_ok (s : Store) (k : Nat) (h : k ∉ s.keys) :
    s.fetch k = Except.ok Option.none :=
  fetch_absent s k h

/-- Witness for C7 at a concrete store and key. -/
theorem fetch_not_found_is_ok_witness :
    (3 : Nat) ∉ (Store.mk [(1, 10)]).keys ∧
    (Store.mk [(1, 10)]).fetch 3 = Except.ok Option.none :=
  ⟨by decide, fetch_not_found_is_ok (Store.mk [(1, 10)]) 3 (by decide)⟩

/-- The empty tangle satisfies the tip-pool invariant. -/
theorem empty_tipInvariant : tipInvariant Tangle.empty := by
  intro tid h
  simp [Tangle.tips, Tangle.empty] at h

/-- Inserting any message preserves the tip-pool invariant. -/
theorem insert_preserves_tipInvariant (s : Tangle) (id : Nat) (m : Message)
    (md : MessageMetadata) (now : Nat) (hinv : tipInvariant s) :
    tipInvariant ((s.insert id m md now).1) := by
  by_cases hc : s.containsId id = true
  · rw [insert_of_contains s id m md now hc]
    exact hinv
  · have hc' : s.containsId id = false := by simpa using hc
    obtain ⟨E, T⟩ := s
    have hins : ((Tangle.mk E T).insert id m md now).1 =
        Tangle.mk ((id, m, md) :: E)
          (if (Tangle.mk ((id, m, md) :: E)
                (T.filter (fun t => ¬ m.parents.contains t.1))).referenced id = true
           then T.filter (fun t => ¬ m.parents.contains t.1)
           else (id, now) :: T.filter (fun t => ¬ m.parents.contains t.1)) := by
      simp [Tangle.insert, hc']
    intro tid htid
    rw [hins] at htid ⊢
    have hold : ∀ p : Nat × Nat, p ∈ T.filter (fun t => ¬ m.parents.contains t.1) →
        p.1 = tid →
        (Tangle.mk ((id, m, md) :: E) (T.filter (fun t => ¬ m.parents.contains t.1))).containsId tid = true ∧
        (Tangle.mk ((id, m, md) :: E) (T.filter (fun t => ¬ m.parents.contains t.1))).referenced tid = false := by
      intro p hpF hptid
      obtain ⟨hpT, hpred⟩ := List.mem_filter.1 hpF
      have hmem : tid ∈ (Tangle.mk E T).tips := by
        simp only [Tangle.tips]
        exact List.mem_map.2 ⟨p, hpT, hptid⟩
      obtain ⟨hcid, href⟩ := hinv tid hmem
      have hnp : m.parents.contains tid = false := by
        rw [← hptid]
        simpa using hpred
      constructor
      · simp only [Tangle.containsId, List.any_cons] at hcid ⊢
        simp [hcid]
      · simp only [Tangle.referenced, List.any_cons] at href ⊢
        rw [hnp, href]
        simp
    by_cases hb : (Tangle.mk ((id, m, md) :: E)
        (T.filter (fun t => ¬ m.parents.contains t.1))).referenced id = true
    · rw [if_pos hb] at htid ⊢
      simp only [Tangle.tips] at htid
      obtain ⟨p, hpF, hptid⟩ := List.mem_map.1 htid
      exact hold p hpF hptid
    · rw [if_neg hb] at htid ⊢
      simp only [Tangle.tips, List.map_cons] at htid
      rcases List.mem_cons.1 htid with heq | hmemF
      · subst heq
        refine ⟨by simp [Tangle.containsId], ?_⟩
        have hb' : (Tangle.mk ((tid, m, md) :: E)
            (T.filter (fun t => ¬ m.parents.contains t.1))).referenced tid = false := by
          simpa using hb
        simpa [Tangle.referenced] using hb'
      · obtain ⟨p, hpF, hptid⟩ := List.mem_map.1 hmemF
        have h2 := hold p hpF hptid
        refine ⟨?_, ?_⟩
        · simpa [Tangle.containsId] using h2.1
        · simpa [Tangle.referenced] using h2.2

/-- Folding inserts over a tangle satisfying the tip-pool invariant keeps it. -/
theorem foldl_insert_tipInvariant (ops : List (Nat × Message × MessageMetadata × Nat))
    (s : Tangle) (h : tipInvariant s) :
    tipInvariant (ops.foldl (fun s op => (s.insert op.1 op.2.1 op.2.2.1 op.2.2.2).1) s) := by
  induction ops generalizing s with
  | nil => exact h
  | cons op ops ih => exact ih _ (insert_preserves_tipInvariant _ _ _ _ _ h)

/-- C4: after any sequence of inserts from the empty tangle every tip is a
known message unreferenced by any other known message; concretely, after
inserting parentless A it is in tips, and after inserting B with parent A the
tips hold B and no longer A. -/
theorem tip_pool_subset_unreferenced (ops : List (Nat × Message × MessageMetadata × Nat))
    (tid : Nat) (htid : tid ∈ (applyInserts ops).tips) :
    ((applyInserts ops).containsId tid = true ∧ (applyInserts ops).referenced tid = false) ∧
    (0 ∈ ((Tangle.empty.insert 0 (Message.mk [] 0) mdFresh 0).1).tips ∧
     1 ∈ ((((Tangle.empty.insert 0 (Message.mk [] 0) mdFresh 0).1).insert 1
        (Message.mk [0] 1) mdFresh 1).1).tips ∧
     0 ∉ ((((Tangle.empty.insert 0 (Message.mk [] 0) mdFresh 0).1).insert 1
        (Message.mk [0] 1) mdFresh 1).1).tips) := by
  refine ⟨?_, by decide, by decide, by decide⟩
  exact foldl_insert_tipInvariant ops Tangle.empty empty_tipInvariant tid htid

/-- Witness for C4 at a concrete insert sequence and tip. -/
theorem tip_pool_subset_unreferenced_witness :
    0 ∈ (applyInserts [(0, Message.mk [] 0, mdFresh, 0)]).tips ∧
    ((applyInserts [(0, Message.mk [] 0, mdFresh, 0)]).containsId 0 = true ∧
      (applyInserts [(0, Message.mk [] 0, mdFresh, 0)]).referenced 0 = false) := by
  refine ⟨by decide, (tip_pool_subset_unreferenced [(0, Message.mk [] 0, mdFresh, 0)] 0 (by decide)).1⟩

/-- Strict comparison of native tokens by token id is antisymmetric. -/
instance : IsAntisymm NativeToken (fun a b => a.token_id < b.token_id) :=
  ⟨fun _ _ hab hba => absurd hab (Nat.lt_asymm hba)⟩

/-- is_unique_sorted holds exactly when consecutive elements strictly
increase. -/
theorem is_unique_sorted_iff (l : List Nat) :
    is_unique_sorted l = true ↔ l.Chain' (fun a b => a < b) := by
  induction l with
  | nil => simp [is_unique_sorted]
  | cons a t ih =>
    cases t with
    | nil => simp [is_unique_sorted]
    | cons b rest =>
      rw [is_unique_sorted, List.chain'_cons, Bool.and_eq_true, decide_eq_true_eq, ih]

/-- is_unique_sorted holds exactly when the list is pairwise strictly
increasing. -/
theorem is_unique_sorted_iff_pairwise (l : List Nat) :
    is_unique_sorted l = true ↔ l.Pairwise (fun a b => a < b) := by
  rw [is_unique_sorted_iff, List.chain'_iff_pairwise]

/-- A list passing is_unique_sorted has no duplicates. -/
theorem nodup_of_is_unique_sorted (l : List Nat) (h : is_unique_sorted l = true) :
    l.Nodup :=
  ((is_unique_sorted_iff_pairwise l).1 h).imp Nat.ne_of_lt

/-- Sorting native tokens with distinct token ids by token id yields a list
pairwise strict in token id. -/
theorem mergeSort_pairwise_lt (v : List NativeToken)
    (hnd : (v.map NativeToken.token_id).Nodup) :
    (v.mergeSort (fun a b => a.token_id ≤ b.token_id)).Pairwise
      (fun a b => a.token_id < b.token_id) := by
  have hperm := List.mergeSort_perm v (fun a b => a.token_id ≤ b.token_id)
  have hnd₂ : ((v.mergeSort (fun a b => a.token_id ≤ b.token_id)).map
      NativeToken.token_id).Nodup :=
    ((hperm.map NativeToken.token_id).nodup_iff).2 hnd
  have hne : (v.mergeSort (fun a b => a.token_id ≤ b.token_id)).Pairwise
      (fun a b => a.token_id ≠ b.token_id) := List.pairwise_map.1 hnd₂
  have hle := @List.sorted_mergeSort NativeToken
    (fun a b : NativeToken => a.token_id ≤ b.token_id)
    (fun a b c hab hbc => by
      simp only [decide_eq_true_eq] at hab hbc ⊢
      omega)
    (fun a b => by
      simp only [Bool.or_eq_true, decide_eq_true_eq]
      exact Nat.le_total a.token_id b.token_id) v
  have hle₂ : (v.mergeSort (fun a b => a.token_id ≤ b.token_id)).Pairwise
      (fun a b => a.token_id ≤ b.token_id) :=
    hle.imp (fun h => by simpa using h)
  exact (hle₂.and hne).imp (fun h => Nat.lt_of_le_of_ne h.1 h.2)

/-- On a list within the length bound whose token ids are distinct,
NativeTokens::new succeeds with the sorted list. -/
theorem new_ok_of_nodup (v : List NativeToken) (hlen : v.length ≤ 256)
    (hnd : (v.map NativeToken.token_id).Nodup) :
    NativeTokens.new v =
      Except.ok (v.mergeSort (fun a b => a.token_id ≤ b.token_id)) := by
  have hpl := mergeSort_pairwise_lt v hnd
  have huniq : is_unique_sorted ((v.mergeSort
      (fun a b => a.token_id ≤ b.token_id)).map NativeToken.token_id) = true := by
    rw [is_unique_sorted_iff_pairwise]
    exact List.pairwise_map.2 hpl
  rw [NativeTokens.new, if_neg (by simp [NativeTokens.COUNT_MAX]; omega)]
  simp [validate_unique_sorted, huniq]

/-- C8: on any vector of at most 256 native tokens with pairwise-distinct
token ids, construction succeeds, the result is sorted ascending by token id,
and any permutation of the input produces the same value. -/
theorem nativeTokens_new_normalizes (v₁ v₂ : List NativeToken)
    (hlen : v₁.length ≤ 256) (hnd : (v₁.map NativeToken.token_id).Nodup)
    (hperm : v₁.Perm v₂) :
    ∃ w, NativeTokens.new v₁ = Except.ok w ∧
      w.Pairwise (fun a b => a.token_id < b.token_id) ∧
      NativeTokens.new v₂ = Except.ok w := by
  have hlen₂ : v₂.length ≤ 256 := by rw [← hperm.length_eq]; exact hlen
  have hnd₂ : (v₂.map NativeToken.token_id).Nodup :=
    ((hperm.map NativeToken.token_id).nodup_iff).1 hnd
  refine ⟨v₁.mergeSort (fun a b => a.token_id ≤ b.token_id),
    new_ok_of_nodup v₁ hlen hnd, mergeSort_pairwise_lt v₁ hnd, ?_⟩
  rw [new_ok_of_nodup v₂ hlen₂ hnd₂]
  have hs₂ : List.Sorted (fun a b : NativeToken => a.token_id < b.token_id)
      (v₂.mergeSort (fun a b => a.token_id ≤ b.token_id)) :=
    mergeSort_pairwise_lt v₂ hnd₂
  have hs₁ : List.Sorted (fun a b : NativeToken => a.token_id < b.token_id)
      (v₁.mergeSort (fun a b => a.token_id ≤ b.token_id)) :=
    mergeSort_pairwise_lt v₁ hnd
  have hperm₂ : List.Perm (v₂.mergeSort (fun a b => a.token_id ≤ b.token_id))
      (v₁.mergeSort (fun a b => a.token_id ≤ b.token_id)) :=
    ((List.mergeSort_perm v₂ _).trans hperm.symm).trans
      (List.mergeSort_perm v₁ _).symm
  rw [List.eq_of_perm_of_sorted hperm₂ hs₂ hs₁]

/-- Witness for C8 at a two-token list and its other permutation. -/
theorem nativeTokens_new_normalizes_witness :
    ([NativeToken.mk 2 5, NativeToken.mk 1 7].length ≤ 256) ∧
    (([NativeToken.mk 2 5, NativeToken.mk 1 7].map NativeToken.token_id).Nodup) ∧
    ([NativeToken.mk 2 5, NativeToken.mk 1 7].Perm
      [NativeToken.mk 1 7, NativeToken.mk 2 5]) ∧
    (∃ w, NativeTokens.new [NativeToken.mk 2 5, NativeToken.mk 1 7] = Except.ok w ∧
      w.Pairwise (fun a b => a.token_id < b.token_id) ∧
      NativeTokens.new [NativeToken.mk 1 7, NativeToken.mk 2 5] = Except.ok w) :=
  ⟨by decide, by decide, by decide,
    nativeTokens_new_normalizes [NativeToken.mk 2 5, NativeToken.mk 1 7]
      [NativeToken.mk 1 7, NativeToken.mk 2 5] (by decide) (by decide) (by decide)⟩

/-- C9: NativeTokens::new rejects a vector longer than 256 with
InvalidNativeTokenCount, rejects a vector within the bound holding two equal
token ids with NativeTokensNotUniqueSorted, and always returns a value or an
error (it never panics). -/
theorem nativeTokens_new_errors (v : List NativeToken) :
    (256 < v.length →
      NativeTokens.new v = Except.error (Error.InvalidNativeTokenCount v.length)) ∧
    (v.length ≤ 256 → ¬ (v.map NativeToken.token_id).Nodup →
      NativeTokens.new v = Except.error Error.NativeTokensNotUniqueSorted) ∧
    ((∃ w, NativeTokens.new v = Except.ok w) ∨
      (∃ e, NativeTokens.new v = Except.error e)) := by
  refine ⟨?_, ?_, ?_⟩
  · intro hlen
    rw [NativeTokens.new, if_pos (by simpa [NativeTokens.COUNT_MAX] using hlen)]
  · intro hlen hdup
    have hperm := List.mergeSort_perm v (fun a b => a.token_id ≤ b.token_id)
    have hu : is_unique_sorted ((v.mergeSort
        (fun a b => a.token_id ≤ b.token_id)).map NativeToken.token_id) = false := by
      cases hcase : is_unique_sorted ((v.mergeSort
          (fun a b => a.token_id ≤ b.token_id)).map NativeToken.token_id) with
      | false => rfl
      | true =>
        have := nodup_of_is_unique_sorted _ hcase
        exact absurd (((hperm.map NativeToken.token_id).nodup_iff).1 this) hdup
    rw [NativeTokens.new, if_neg (by simp [NativeTokens.COUNT_MAX]; omega)]
    simp [validate_unique_sorted, hu]
  · cases hres : NativeTokens.new v with
    | ok w => exact Or.inl ⟨w, rfl⟩
    | error e => exact Or.inr ⟨e, rfl⟩

/-- Witness for C9 at an over-long vector and at a duplicated-id vector. -/
theorem nativeTokens_new_errors_witness :
    (256 < (List.replicate 257 (NativeToken.mk 0 0)).length ∧
      NativeTokens.new (List.replicate 257 (NativeToken.mk 0 0)) =
        Except.error (Error.InvalidNativeTokenCount
          (List.replicate 257 (NativeToken.mk 0 0)).length)) ∧
    (([NativeToken.mk 1 1, NativeToken.mk 1 2].length ≤ 256) ∧
      ¬ (([NativeToken.mk 1 1, NativeToken.mk 1 2]).map NativeToken.token_id).Nodup ∧
      NativeTokens.new [NativeToken.mk 1 1, NativeToken.mk 1 2] =
        Except.error Error.NativeTokensNotUniqueSorted) :=
  ⟨⟨by rw [List.length_replicate]; omega,
    (nativeTokens_new_errors (List.replicate 257 (NativeToken.mk 0 0))).1
      (by rw [List.length_replicate]; omega)⟩,
   ⟨by decide, by decide,
    (nativeTokens_new_errors [NativeToken.mk 1 1, NativeToken.mk 1 2]).2.1
      (by decide) (by decide)⟩⟩

/-- One register_callback step keeps the per-event counting invariant: an
event absent from the shutdowns map has no streamer and no listener, and no
event ever has more than one of either. -/
theorem register_callback_count_invariant (h : PluginHandler) (a e : EventId)
    (hz : h.containsEvent e = false → h.countStreamers e = 0 ∧ h.countListeners e = 0)
    (h1 : h.countStreamers e ≤ 1) (h2 : h.countListeners e ≤ 1) :
    ((h.register_callback a).containsEvent e = false →
      (h.register_callback a).countStreamers e = 0 ∧
      (h.register_callback a).countListeners e = 0) ∧
    (h.register_callback a).countStreamers e ≤ 1 ∧
    (h.register_callback a).countListeners e ≤ 1 := by
  by_cases hc : h.containsEvent a = true
  · have hstay : h.register_callback a = h := by
      simp [PluginHandler.register_callback, hc]
    rw [hstay]
    exact ⟨hz, h1, h2⟩
  · have hc' : h.containsEvent a = false := by simpa using hc
    have hreg : h.register_callback a =
        { shutdowns := (a, h.nextShutdownId) :: h.shutdowns
          streamers := a :: h.streamers
          listeners := a :: h.listeners
          nextShutdownId := h.nextShutdownId + 1 } := by
      simp [PluginHandler.register_callback, hc']
    rw [hreg]
    by_cases he : a = e
    · subst he
      have hzz := hz hc'
      refine ⟨fun hfalse => ?_, ?_, ?_⟩
      · exfalso
        simp [PluginHandler.containsEvent] at hfalse
      · simp only [PluginHandler.countStreamers] at hzz ⊢
        rw [List.countP_cons_of_pos _ _ (by simp)]
        omega
      · simp only [PluginHandler.countListeners] at hzz ⊢
        rw [List.countP_cons_of_pos _ _ (by simp)]
        omega
    · have hcount₁ : (a :: h.streamers).countP (fun x => x = e) =
          h.streamers.countP (fun x => x = e) :=
        List.countP_cons_of_neg _ _ (by simpa using he)
      have hcount₂ : (a :: h.listeners).countP (fun x => x = e) =
          h.listeners.countP (fun x => x = e) :=
        List.countP_cons_of_neg _ _ (by simpa using he)
      refine ⟨fun hfalse => ?_, ?_, ?_⟩
      · have hold : h.containsEvent e = false := by
          simp only [PluginHandler.containsEvent, List.any_cons] at hfalse
          rcases Bool.or_eq_false_iff.1 hfalse with ⟨_, hrest⟩
          exact hrest
        have hzz := hz hold
        constructor
        · simp only [PluginHandler.countStreamers] at hzz ⊢
          rw [hcount₁]
          exact hzz.1
        · simp only [PluginHandler.countListeners] at hzz ⊢
          rw [hcount₂]
          exact hzz.2
      · simp only [PluginHandler.countStreamers] at h1 ⊢
        rw [hcount₁]
        exact h1
      · simp only [PluginHandler.countListeners] at h2 ⊢
        rw [hcount₂]
        exact h2

/-- Folding register_callback over a list of event ids keeps the per-event
counting invariant. -/
theorem foldl_register_invariant (ids : List EventId) (h : PluginHandler) (e : EventId)
    (inv : (h.containsEvent e = false → h.countStreamers e = 0 ∧ h.countListeners e = 0) ∧
      h.countStreamers e ≤ 1 ∧ h.countListeners e ≤ 1) :
    ((ids.foldl PluginHandler.register_callback h).containsEvent e = false →
      (ids.foldl PluginHandler.register_callback h).countStreamers e = 0 ∧
      (ids.foldl PluginHandler.register_callback h).countListeners e = 0) ∧
    (ids.foldl PluginHandler.register_callback h).countStreamers e ≤ 1 ∧
    (ids.foldl PluginHandler.register_callback h).countListeners e ≤ 1 := by
  induction ids generalizing h with
  | nil => exact inv
  | cons a ids ih =>
    exact ih _ (register_callback_count_invariant h a e inv.1 inv.2.1 inv.2.2)

/-- C10: register_callback is a no-op for an event id already present in the
shutdowns map, and after any handshake registration sequence each event kind
has at most one streamer task and at most one event-bus listener. -/
theorem register_callback_idempotent (h : PluginHandler) (e : EventId)
    (event_ids : List EventId) (e₂ : EventId) (hreg : h.containsEvent e = true) :
    h.register_callback e = h ∧
    (PluginHandler.new event_ids).countStreamers e₂ ≤ 1 ∧
    (PluginHandler.new event_ids).countListeners e₂ ≤ 1 := by
  have hinv := foldl_register_invariant event_ids
    { shutdowns := [], streamers := [], listeners := [], nextShutdownId := 0 } e₂
    ⟨fun _ => ⟨rfl, rfl⟩, Nat.zero_le 1, Nat.zero_le 1⟩
  exact ⟨by simp [PluginHandler.register_callback, hreg], hinv.2.1, hinv.2.2⟩

/-- Witness for C10 at a handler that already registered MessageParsed and a
handshake with a duplicated event id. -/
theorem register_callback_idempotent_witness :
    (PluginHandler.new [EventId.MessageParsed]).containsEvent EventId.MessageParsed = true ∧
    (PluginHandler.new [EventId.MessageParsed]).register_callback EventId.MessageParsed =
      PluginHandler.new [EventId.MessageParsed] ∧
    (PluginHandler.new [EventId.MessageParsed, EventId.MessageParsed]).countStreamers
      EventId.MessageParsed ≤ 1 ∧
    (PluginHandler.new [EventId.MessageParsed, EventId.MessageParsed]).countListeners
      EventId.MessageParsed ≤ 1 := by
  have h := register_callback_idempotent (PluginHandler.new [EventId.MessageParsed])
    EventId.MessageParsed [EventId.MessageParsed, EventId.MessageParsed]
    EventId.MessageParsed (by decide)
  exact ⟨by decide, h.1, h.2.1, h.2.2⟩

end TheTheorems

end Bee



